import Mathlib

/-!
Shallow embedding of `src/rasterix/rasterize/exact.py` (the `exactextract`
coverage wrappers of the rasterix repository) and verification of the
specification's claims about it.

Numeric axis values are embedded as rationals (`ℚ`): the Python code performs
only field arithmetic (differences, halving, min/max, absolute value) on the
coordinate arrays, which is exact over `ℚ`.  Machine integers index arrays and
never overflow at the sizes involved, so they are embedded as `ℕ`.  The
external overlay engine (`exact_extract`) is out of scope of the repository and
is embedded as an explicit function parameter from a raster descriptor and a
geometry list to per-geometry rows of cell ids and coverage values, exactly the
shape of the tabular result the code consumes.  Fallible Python code (raising
`ValueError` etc.) is embedded with `Except String`.
-/

/-! ## Small helpers: `np.min` / `np.max` on nonempty lists, string utilities -/

/-- Embedding of `np.min` on a 1-D array; the Python call errors on an empty
array, an input the code never produces, so the empty case returns a junk 0. -/
def listMin : List ℚ → ℚ
  | [] => 0
  | a :: as => as.foldl min a

/-- Embedding of `np.max` on a 1-D array (junk 0 on the empty array). -/
def listMax : List ℚ → ℚ
  | [] => 0
  | a :: as => as.foldl max a

/-- Boolean test that the first list is an initial segment of the second. -/
def listIsPfxOf : List Char → List Char → Bool
  | [], _ => true
  | _ :: _, [] => false
  | a :: as, b :: bs => a = b && listIsPfxOf as bs

/-- Boolean substring containment on character lists (`needle`, `haystack`). -/
def listContainsSub (sub : List Char) : List Char → Bool
  | [] => listIsPfxOf sub []
  | a :: t => listIsPfxOf sub (a :: t) || listContainsSub sub t

/-- Embedding of Python's `sub in s` substring test. -/
def strContains (s sub : String) : Bool :=
  listContainsSub sub.toList s.toList

/-- Boolean test that `suf` is a final segment of `s`. -/
def listEndsList (s suf : List Char) : Bool :=
  listIsPfxOf suf.reverse s.reverse

/-- Embedding of Python's `s.removesuffix(suf)`. -/
def removeSuffix (s suf : String) : String :=
  if listEndsList s.toList suf.toList then
    String.mk (s.toList.take (s.toList.length - suf.toList.length))
  else s

/-! ## Data model -/

/-- A coordinate reference system; the code only ever reads its WKT rendering
(`crs.to_wkt()`), so the embedding carries exactly that string. -/
structure CRS where
  wkt : String
deriving DecidableEq

/-- Embedding of a `geopandas.GeoDataFrame` as the code uses it: a list of
column names, the geometry column contents (one abstract geometry of type `G`
per feature), and a CRS. -/
structure GeoDataFrame (G : Type) where
  columns : List String
  geometry : List G
  crs : CRS

/-- Embedding of `exactextract.raster.NumPyRasterSource` as constructed by
`xy_to_raster_source`: a shape, a bounding box and an optional WKT CRS.  The
constant all-ones payload `np.broadcast_to([1], shape)` is determined by the
shape and carries no further information, so it is not materialized. -/
structure RasterSource where
  nrows : ℕ
  ncols : ℕ
  xmin : ℚ
  xmax : ℚ
  ymin : ℚ
  ymax : ℚ
  srs_wkt : Option String
deriving DecidableEq

/-- One row of the overlay engine's tabular result: the list of intersected
linear cell ids for one geometry and the parallel list of coverage values. -/
structure EngineRow where
  cell_id : List ℕ
  coverage : List ℚ
deriving DecidableEq

/-- The five admissible `coverage_weight` literals of the source. -/
inductive CoverageWeightsKind
  | area_spherical_m2
  | area_cartesian
  | area_spherical_km2
  | fraction
  | none
deriving DecidableEq

/-- The external overlay engine (`exact_extract`), modelled as a pure function
of the raster descriptor, the geometry list and the requested coverage weight,
returning one `EngineRow` per geometry. -/
def Engine (G : Type) : Type :=
  RasterSource → List G → CoverageWeightsKind → List EngineRow

/-- The two value dtypes `get_dtype` can choose. -/
inductive DType
  | uint8
  | float64
deriving DecidableEq

/-- The three admissible `strategy` literals of the source. -/
inductive Strategy
  | feature_sequential
  | raster_sequential
  | raster_parallel
deriving DecidableEq

/-- Embedding of `DEFAULT_STRATEGY = "feature-sequential"`. -/
def DEFAULT_STRATEGY : Strategy := Strategy.feature_sequential

/-- Embedding of `MIN_CHUNK_SIZE = 2`. -/
def MIN_CHUNK_SIZE : ℕ := 2

/-- Embedding of a `sparse.COO` array as `np_coverage` constructs it: a 3-D
shape, the list of stored coordinates (geometry, y, x) in construction order,
the parallel list of stored values, the value dtype, and the fill value. -/
structure COO where
  shape : ℕ × ℕ × ℕ
  coords : List (ℕ × ℕ × ℕ)
  data : List ℚ
  dtype : DType
  fill_value : ℚ
deriving DecidableEq

/-- The dense-equivalent reading of a sparse `COO`: the value at an index is
the sum of the stored entries at that index (0, the fill value, when none). -/
def COO.dense (a : COO) (idx : ℕ × ℕ × ℕ) : ℚ :=
  (((a.coords.zip a.data).filter fun p => p.1 = idx).map Prod.snd).sum

/-! ## `xy_to_raster_source` and `get_dtype` -/

/-- Embedding of `xy_to_raster_source`: builds the raster descriptor from the
1-D x and y cell-center axes.  Python's `x[1]`, `x[-1]`, `x[-2]` are index
accesses that raise on axes shorter than 2; the claims all assume length ≥ 2,
under which the `getD` defaults below are never consulted. -/
def xy_to_raster_source (x y : List ℚ) (srs_wkt : Option String) : RasterSource :=
  let xsize := x.length
  let ysize := y.length
  let dx0 := (x.getD 1 0 - x.getD 0 0) / 2
  let dx1 := (x.getD (xsize - 1) 0 - x.getD (xsize - 2) 0) / 2
  let dy0 := |y.getD 1 0 - y.getD 0 0| / 2
  let dy1 := |y.getD (ysize - 1) 0 - y.getD (ysize - 2) 0| / 2
  let dy := if y.getD 0 0 > y.getD (ysize - 1) 0 then (dy1, dy0) else (dy0, dy1)
  { nrows := ysize
    ncols := xsize
    xmin := listMin x - dx0
    xmax := listMax x + dx1
    ymin := listMin y - dy.1
    ymax := listMax y + dy.2
    srs_wkt := srs_wkt }

/-- Embedding of `get_dtype` (the `geometries` argument is accepted and unused,
as in the source; `coverage_weight.lower()` is the identity on the five
admissible lowercase literals). -/
def get_dtype {G : Type} (coverage_weight : CoverageWeightsKind)
    (geometries : GeoDataFrame G) : DType :=
  match coverage_weight with
  | .none => DType.uint8
  | _ => DType.float64

/-- NumPy dtype cast applied when storing a coverage value into the `data`
array allocated with `np.empty(..., dtype=dtype)`: a float64 value is kept
exactly, a uint8 store truncates to an integer modulo 256 (coverage values are
nonnegative, where truncation coincides with the floor). -/
def castDType : DType → ℚ → ℚ
  | DType.float64, q => q
  | DType.uint8, q => ((⌊q⌋ % 256 : ℤ) : ℚ)

/-! ## `np_coverage`: the single-block coverage computer -/

/-- Default engine row used to embed `result.cell_id.values[i]` /
`result.coverage.values[i]`; the engine contract (one row per geometry) makes
the default unreachable in every theorem below that consumes it. -/
def emptyRow : EngineRow := { cell_id := [], coverage := [] }

/-- The body of `np_coverage` after its single-column check: builds the raster
descriptor carrying the geometries' CRS WKT, invokes the overlay engine once on
the whole geometry set, and assembles the per-geometry cell-id/coverage rows
into one sparse COO of shape `(len(geometries), len(y), len(x))`, unraveling
each linear cell id row-major against `(ysize, xsize)` and skipping geometries
whose cell-id list is empty. -/
def np_coverage_core {G : Type} (x y : List ℚ) (geometries : GeoDataFrame G)
    (coverage_weight : CoverageWeightsKind) (engine : Engine G) : COO :=
  let dtype := get_dtype coverage_weight geometries
  let raster := xy_to_raster_source x y (some geometries.crs.wkt)
  let result := engine raster geometries.geometry coverage_weight
  let entries := (List.range geometries.geometry.length).flatMap fun i =>
    let row := result.getD i emptyRow
    (List.range row.cell_id.length).map fun k =>
      let c := row.cell_id.getD k 0
      ((i, c / x.length, c % x.length),
        castDType (get_dtype coverage_weight geometries) (row.coverage.getD k 0))
  { shape := (geometries.geometry.length, y.length, x.length)
    coords := entries.map Prod.fst
    data := entries.map Prod.snd
    dtype := dtype
    fill_value := 0 }

/-- Embedding of `np_coverage`: rejects a geometry frame with more than one
column, otherwise computes the sparse coverage block.  `strategy` is accepted
and, as in the source, not forwarded to the engine call. -/
def np_coverage {G : Type} (x y : List ℚ) (geometries : GeoDataFrame G)
    (strategy : Strategy) (coverage_weight : CoverageWeightsKind)
    (engine : Engine G) : Except String COO :=
  if geometries.columns.length > 1 then
    Except.error "Require a single geometries column or a GeoSeries."
  else
    Except.ok (np_coverage_core x y geometries coverage_weight engine)

/-! ## `dask_coverage`: the chunk dispatcher -/

/-- Embedding of `coverage_np_dask_wrapper`: the per-block callback handed to
`dask.array.map_blocks`.  The axis squeezes are pure reshapes and the wrapper
rebuilds a single-column `GeoDataFrame` from the block's geometry slice; the
received `strategy` is dropped, as in the source (which does not forward it to
`np_coverage`). -/
def coverage_np_dask_wrapper {G : Type} (geom_array : List G) (x y : List ℚ)
    (coverage_weight : CoverageWeightsKind) (strategy : Strategy) (crs : CRS)
    (engine : Engine G) : Except String COO :=
  np_coverage x y
    { columns := ["geometry"], geometry := geom_array, crs := crs }
    DEFAULT_STRATEGY coverage_weight engine

/-- Embedding of `dask_coverage`: a chunked 1-D axis is a list of chunk blocks
(`x.chunks[0]` is then the list of block lengths).  After the size-1 chunk
guard, `map_blocks` materializes one block result per element of the Cartesian
product geometry-chunk × y-chunk × x-chunk, with output chunk structure
`(*geom_array.chunks, *y.chunks, *x.chunks)`. -/
def dask_coverage {G : Type} (x y : List (List ℚ)) (geom_array : List (List G))
    (coverage_weight : CoverageWeightsKind) (strategy : Strategy) (crs : CRS)
    (engine : Engine G) :
    Except String (List (List (List (Except String COO)))) :=
  if (x.map List.length).any (fun c => c = 1) ||
      (y.map List.length).any (fun c => c = 1) then
    Except.error "exactextract does not support a chunksize of 1. Please rechunk to avoid this"
  else
    Except.ok <| geom_array.map fun gb => y.map fun yb => x.map fun xb =>
      coverage_np_dask_wrapper gb xb yb coverage_weight strategy crs engine

/-- Locate a global index inside a list of chunk sizes: returns the block
index and the offset within that block, the index bookkeeping the chunked
execution engine applies to address a block-structured array globally. -/
def locate : List ℕ → ℕ → ℕ × ℕ
  | [], i => (0, i)
  | c :: cs, i =>
    if i < c then (0, i)
    else
      let p := locate cs (i - c)
      (p.1 + 1, p.2)

/-- The dense-equivalent reading of the chunked (block grid) result of
`dask_coverage`, given the chunk sizes along the geometry, y and x axes: the
value at a global index is the dense value of the owning block at the
block-local offsets. -/
def gridDense (grid : List (List (List (Except String COO))))
    (gsz ysz xsz : List ℕ) (g i j : ℕ) : ℚ :=
  let pg := locate gsz g
  let pi := locate ysz i
  let pj := locate xsz j
  match ((grid.getD pg.1 []).getD pi.1 []).getD pj.1 (Except.error "") with
  | Except.ok c => c.dense (pg.2, pi.2, pj.2)
  | Except.error _ => 0

/-! ## The `coverage` entry point: mode selection, normalization, assembly -/

/-- A 1-D coordinate variable's data: either an in-memory NumPy array or a
chunked dask array (held as its list of chunk blocks). -/
inductive ArrOrDask
  | arr (data : List ℚ)
  | dask (chunks : List (List ℚ))

/-- Embedding of the gridded xarray object as `coverage` consumes it: the
optional `spatial_ref` coordinate (with its payload), the data of the x and y
coordinate variables, and the object's per-dimension chunk-size metadata
(`obj.chunksizes.get(dim)`, `none` when the dimension is absent from the
mapping). -/
structure XrObj where
  spatial_ref : Option String
  xdata : ArrOrDask
  ydata : ArrOrDask
  xchunksizes : Option (List ℕ)
  ychunksizes : Option (List ℕ)

/-- The geometry argument of `coverage`: an in-memory `geopandas.GeoDataFrame`
or a partitioned `dask_geopandas.GeoDataFrame` (held as its column names,
geometry partitions and CRS). -/
inductive GeoInput (G : Type)
  | mem (gdf : GeoDataFrame G)
  | daskgdf (columns : List String) (parts : List (List G)) (crs : CRS)

/-- The CRS of either geometry representation. -/
def GeoInput.crs {G : Type} : GeoInput G → CRS
  | .mem gdf => gdf.crs
  | .daskgdf _ _ crs => crs

/-- Modelled from the spec: `is_in_memory` is imported from `.utils`, which is
not part of the sources; per §4.5 the Mode Selector "inspects whether the
gridded object and the geometry collection are both fully materialized in
memory".  An object is fully in memory when its coordinate data are plain
arrays and it carries no chunk-size metadata; the geometry collection when it
is a plain `GeoDataFrame`. -/
def is_in_memory {G : Type} (obj : XrObj) (geometries : GeoInput G) : Bool :=
  (match obj.xdata with | .arr _ => true | .dask _ => false) &&
  (match obj.ydata with | .arr _ => true | .dask _ => false) &&
  obj.xchunksizes.isNone && obj.ychunksizes.isNone &&
  (match geometries with | .mem _ => true | .daskgdf _ _ _ => false)

/-- Modelled from the spec: `geometries_as_dask_array` is imported from
`.utils`, which is not part of the sources; per §4.5 it "normalizes the
geometry collection into its chunked representation" — a partitioned frame
contributes its own partitions, an in-memory frame becomes one single chunk of
its geometry column. -/
def geometries_as_dask_array {G : Type} : GeoInput G → List (List G)
  | .mem gdf => [gdf.geometry]
  | .daskgdf _ parts _ => parts

/-- Split a flat array into consecutive chunks of the given sizes (dask
requires the sizes to sum to the array length; trailing data beyond the listed
sizes is dropped, a case the theorems below exclude). -/
def partitionChunks : List ℚ → List ℕ → List (List ℚ)
  | _, [] => []
  | d, c :: cs => d.take c :: partitionChunks (d.drop c) cs

/-- Embedding of `dask.array.from_array(data, chunks=meta.get(dim, -1))`: with
no chunk-size metadata for the dimension the chunks argument is `-1` and the
whole array becomes a single chunk, otherwise it is split per the metadata. -/
def from_array (data : List ℚ) : Option (List ℕ) → List (List ℚ)
  | Option.none => [data]
  | some cs => partitionChunks data cs

/-- The normalization `coverage` applies to each coordinate variable on the
chunked path: an already-chunked dask array is passed through, an in-memory
array goes through `from_array` with the object's chunk-size metadata. -/
def normalizeCoord (data : ArrOrDask) (meta : Option (List ℕ)) : List (List ℚ) :=
  match data with
  | .dask cs => cs
  | .arr d => from_array d meta

/-- Embedding of `geometries.to_numpy().squeeze(axis=1)`: squeezing axis 1 of
the `(nrows, ncols)` table succeeds exactly when there is exactly one column,
and raises a `ValueError` otherwise. -/
def gdf_squeeze {G : Type} (gdf : GeoDataFrame G) : Except String (List G) :=
  if gdf.columns.length = 1 then Except.ok gdf.geometry
  else Except.error "cannot select an axis to squeeze out which has size not equal to one"

/-- The string literal each `coverage_weight` denotes, against which the
source performs its substring and equality tests. -/
def cwString : CoverageWeightsKind → String
  | .area_spherical_m2 => "area_spherical_m2"
  | .area_cartesian => "area_cartesian"
  | .area_spherical_km2 => "area_spherical_km2"
  | .fraction => "fraction"
  | .none => "none"

/-- The data payload of the returned DataArray: the in-memory sparse COO or
the chunked block grid. -/
inductive CoverageData
  | mem (c : COO)
  | dask (grid : List (List (List (Except String COO))))

/-- The geometry coordinate attached to the output: a flat geometry array or
its chunked representation. -/
inductive GeomCoord (G : Type)
  | mem (gs : List G)
  | dask (chunks : List (List G))

/-- The labeled output of `coverage`: name, the two weighting-derived
attributes, the data payload, and the attached `spatial_ref` and geometry
coordinates. -/
structure DataArrayOut (G : Type) where
  name : String
  long_name : Option String
  units : Option String
  data : CoverageData
  spatial_ref : String
  geometry : GeomCoord G

/-- The tail of `coverage`: naming and attribute derivation from the weighting
mode, and attachment of the `spatial_ref` and geometry coordinates. -/
def assemble {G : Type} (coverage_weight : CoverageWeightsKind)
    (spatial_ref : String) (data : CoverageData) (geom : GeomCoord G) :
    DataArrayOut G :=
  let cw := cwString coverage_weight
  let name := if strContains cw "area" then "area" else "coverage"
  let lnu :=
    if strContains cw "_m2" || cw = "area_cartesian" then
      (some (removeSuffix cw "_m2"), some "m2")
    else if strContains cw "_km2" then
      (some (removeSuffix cw "_km2"), some "km2")
    else ((Option.none : Option String), (Option.none : Option String))
  { name := name
    long_name := lnu.1
    units := lnu.2
    data := data
    spatial_ref := spatial_ref
    geometry := geom }

/-- The in-memory branch of `coverage` (lines 207-214 and the shared tail of
the source): `np_coverage` on the coordinate arrays, then the geometry-column
squeeze, then assembly.  `sr` is the `spatial_ref` payload checked upfront. -/
def coverage_mem {G : Type} (xd yd : List ℚ) (gdf : GeoDataFrame G)
    (strategy : Strategy) (coverage_weight : CoverageWeightsKind)
    (engine : Engine G) (sr : String) : Except String (DataArrayOut G) :=
  match np_coverage xd yd gdf strategy coverage_weight engine with
  | Except.error e => Except.error e
  | Except.ok out =>
    match gdf_squeeze gdf with
    | Except.error e => Except.error e
    | Except.ok geomArr =>
      Except.ok
        (assemble coverage_weight sr (CoverageData.mem out) (GeomCoord.mem geomArr))

/-- The chunked branch of `coverage` (lines 215-240 and the shared tail of
the source): geometry and coordinate normalization, `dask_coverage`, the
geometry-coordinate extraction, then assembly. -/
def coverage_chunked {G : Type} (obj : XrObj) (geoms : GeoInput G)
    (strategy : Strategy) (coverage_weight : CoverageWeightsKind)
    (engine : Engine G) (sr : String) : Except String (DataArrayOut G) :=
  let geom_dask_array := geometries_as_dask_array geoms
  let dask_x := normalizeCoord obj.xdata obj.xchunksizes
  let dask_y := normalizeCoord obj.ydata obj.ychunksizes
  match dask_coverage dask_x dask_y geom_dask_array coverage_weight strategy
      (GeoInput.crs geoms) engine with
  | Except.error e => Except.error e
  | Except.ok grid =>
    match (match geoms with
           | .mem gdf => (gdf_squeeze gdf).map GeomCoord.mem
           | .daskgdf _ _ _ => Except.ok (GeomCoord.dask geom_dask_array)) with
    | Except.error e => Except.error e
    | Except.ok gcoord =>
      Except.ok (assemble coverage_weight sr (CoverageData.dask grid) gcoord)

/-- Embedding of the public `coverage` entry point: checks for the
`spatial_ref` coordinate, routes between the in-memory and the chunked path
per the Mode Selector, normalizes inputs on the chunked path, and assembles
the labeled output. -/
def coverage {G : Type} (obj : XrObj) (geometries : GeoInput G)
    (strategy : Strategy) (coverage_weight : CoverageWeightsKind)
    (engine : Engine G) : Except String (DataArrayOut G) :=
  if obj.spatial_ref.isNone then
    Except.error "Xarray object must contain the `spatial_ref` variable."
  else
    match obj.xdata, obj.ydata, geometries, is_in_memory obj geometries with
    | .arr xd, .arr yd, .mem gdf, true =>
      coverage_mem xd yd gdf strategy coverage_weight engine
        (obj.spatial_ref.getD "")
    | _, _, _, _ =>
      coverage_chunked obj geometries strategy coverage_weight engine
        (obj.spatial_ref.getD "")

/-! ## Helper lemmas -/

theorem foldl_min_mem (l : List ℚ) : ∀ a : ℚ, l.foldl min a ∈ a :: l := by
  induction l with
  | nil => intro a; simp
  | cons b t ih =>
    intro a
    have h := ih (min a b)
    simp only [List.mem_cons] at h ⊢
    rcases h with h' | h'
    · rcases min_cases a b with ⟨hm, _⟩ | ⟨hm, _⟩
      · exact Or.inl (h'.trans hm)
      · exact Or.inr (Or.inl (h'.trans hm))
    · exact Or.inr (Or.inr h')

theorem foldl_min_le_init (l : List ℚ) : ∀ a : ℚ, l.foldl min a ≤ a := by
  induction l with
  | nil => intro a; simp [List.foldl]
  | cons b t ih =>
    intro a
    calc (b :: t).foldl min a = t.foldl min (min a b) := rfl
      _ ≤ min a b := ih (min a b)
      _ ≤ a := min_le_left _ _

theorem foldl_min_le_mem (l : List ℚ) : ∀ a : ℚ, ∀ v ∈ l, l.foldl min a ≤ v := by
  induction l with
  | nil => intro a v hv; exact absurd hv (List.not_mem_nil v)
  | cons b t ih =>
    intro a v hv
    rcases List.mem_cons.mp hv with h | h
    · subst h
      calc (v :: t).foldl min a = t.foldl min (min a v) := rfl
        _ ≤ min a v := foldl_min_le_init t _
        _ ≤ v := min_le_right _ _
    · exact ih (min a b) v h

theorem foldl_max_mem (l : List ℚ) : ∀ a : ℚ, l.foldl max a ∈ a :: l := by
  induction l with
  | nil => intro a; simp
  | cons b t ih =>
    intro a
    have h := ih (max a b)
    simp only [List.mem_cons] at h ⊢
    rcases h with h' | h'
    · rcases max_cases a b with ⟨hm, _⟩ | ⟨hm, _⟩
      · exact Or.inl (h'.trans hm)
      · exact Or.inr (Or.inl (h'.trans hm))
    · exact Or.inr (Or.inr h')

theorem foldl_max_ge_init (l : List ℚ) : ∀ a : ℚ, a ≤ l.foldl max a := by
  induction l with
  | nil => intro a; simp [List.foldl]
  | cons b t ih =>
    intro a
    calc a ≤ max a b := le_max_left _ _
      _ ≤ t.foldl max (max a b) := ih (max a b)
      _ = (b :: t).foldl max a := rfl

theorem foldl_max_ge_mem (l : List ℚ) : ∀ a : ℚ, ∀ v ∈ l, v ≤ l.foldl max a := by
  induction l with
  | nil => intro a v hv; exact absurd hv (List.not_mem_nil v)
  | cons b t ih =>
    intro a v hv
    rcases List.mem_cons.mp hv with h | h
    · subst h
      calc v ≤ max a v := le_max_right _ _
        _ ≤ t.foldl max (max a v) := foldl_max_ge_init t _
        _ = (v :: t).foldl max a := rfl
    · exact ih (max a b) v h

theorem listMin_eq (x : List ℚ) (m : ℚ) (hm : m ∈ x) (hle : ∀ v ∈ x, m ≤ v) :
    listMin x = m := by
  match x, hm with
  | a :: t, hm =>
    refine le_antisymm ?_ (hle _ (foldl_min_mem t a))
    rcases List.mem_cons.mp hm with h | h
    · exact h ▸ foldl_min_le_init t a
    · exact foldl_min_le_mem t a m h

theorem listMax_eq (x : List ℚ) (m : ℚ) (hm : m ∈ x) (hle : ∀ v ∈ x, v ≤ m) :
    listMax x = m := by
  match x, hm with
  | a :: t, hm =>
    refine le_antisymm (hle _ (foldl_max_mem t a)) ?_
    rcases List.mem_cons.mp hm with h | h
    · exact h ▸ foldl_max_ge_init t a
    · exact foldl_max_ge_mem t a m h

theorem chainLt_head_le (l : List ℚ) (h : List.Chain' (· < ·) l) :
    ∀ v ∈ l, l.getD 0 0 ≤ v := by
  induction l with
  | nil => intro v hv; exact absurd hv (List.not_mem_nil v)
  | cons a t ih =>
    intro v hv
    rcases List.mem_cons.mp hv with rfl | hv'
    · exact le_refl _
    · match t, hv' with
      | b :: ts, hv' =>
        have hab : a < b := (List.chain'_cons.mp h).1
        have hbt : List.Chain' (· < ·) (b :: ts) := (List.chain'_cons.mp h).2
        exact le_trans (le_of_lt hab) (ih hbt v hv')

theorem chainLt_le_last (l : List ℚ) (h : List.Chain' (· < ·) l) :
    ∀ v ∈ l, v ≤ l.getD (l.length - 1) 0 := by
  induction l with
  | nil => intro v hv; exact absurd hv (List.not_mem_nil v)
  | cons a t ih =>
    intro v hv
    match t with
    | [] =>
      rcases List.mem_cons.mp hv with rfl | hv'
      · exact le_refl _
      · exact absurd hv' (List.not_mem_nil v)
    | b :: ts =>
      have hab : a < b := (List.chain'_cons.mp h).1
      have hbt : List.Chain' (· < ·) (b :: ts) := (List.chain'_cons.mp h).2
      have hlast : (a :: b :: ts).getD ((a :: b :: ts).length - 1) 0
          = (b :: ts).getD ((b :: ts).length - 1) 0 := by
        simp [List.getD]
      rw [hlast]
      rcases List.mem_cons.mp hv with rfl | hv'
      · exact le_trans (le_of_lt hab) (ih hbt b (List.mem_cons_self _ _))
      · exact ih hbt v hv'

theorem chainGt_le_head (l : List ℚ) (h : List.Chain' (· > ·) l) :
    ∀ v ∈ l, v ≤ l.getD 0 0 := by
  induction l with
  | nil => intro v hv; exact absurd hv (List.not_mem_nil v)
  | cons a t ih =>
    intro v hv
    rcases List.mem_cons.mp hv with rfl | hv'
    · exact le_refl _
    · match t, hv' with
      | b :: ts, hv' =>
        have hab : a > b := (List.chain'_cons.mp h).1
        have hbt : List.Chain' (· > ·) (b :: ts) := (List.chain'_cons.mp h).2
        exact le_trans (ih hbt v hv') (le_of_lt hab)

theorem chainGt_last_le (l : List ℚ) (h : List.Chain' (· > ·) l) :
    ∀ v ∈ l, l.getD (l.length - 1) 0 ≤ v := by
  induction l with
  | nil => intro v hv; exact absurd hv (List.not_mem_nil v)
  | cons a t ih =>
    intro v hv
    match t with
    | [] =>
      rcases List.mem_cons.mp hv with rfl | hv'
      · exact le_refl _
      · exact absurd hv' (List.not_mem_nil v)
    | b :: ts =>
      have hab : a > b := (List.chain'_cons.mp h).1
      have hbt : List.Chain' (· > ·) (b :: ts) := (List.chain'_cons.mp h).2
      have hlast : (a :: b :: ts).getD ((a :: b :: ts).length - 1) 0
          = (b :: ts).getD ((b :: ts).length - 1) 0 := by
        simp [List.getD]
      rw [hlast]
      rcases List.mem_cons.mp hv with rfl | hv'
      · exact le_trans (ih hbt b (List.mem_cons_self _ _)) (le_of_lt hab)
      · exact ih hbt v hv'

theorem getD_map_length {α : Type} (l : List (List α)) (n : ℕ) :
    (l.map List.length).getD n 0 = (l.getD n []).length := by
  induction l generalizing n with
  | nil => simp
  | cons a t ih =>
    cases n with
    | zero => rfl
    | succ m => simpa using ih m

theorem getD_map_of_lt {α β : Type} (l : List α) (f : α → β) (n : ℕ) (dα : α)
    (dβ : β) (h : n < l.length) : (l.map f).getD n dβ = f (l.getD n dα) := by
  induction l generalizing n with
  | nil => simp at h
  | cons a t ih =>
    cases n with
    | zero => rfl
    | succ m =>
      have hm : m < t.length := by simpa using h
      simpa using ih m hm

theorem locate_spec (cs : List ℕ) (i : ℕ) (h : i < cs.sum) :
    (locate cs i).1 < cs.length ∧ (locate cs i).2 < cs.getD (locate cs i).1 0 ∧
      (cs.take (locate cs i).1).sum + (locate cs i).2 = i := by
  induction cs generalizing i with
  | nil => simp at h
  | cons c t ih =>
    by_cases hi : i < c
    · refine ⟨by simp [locate, hi], ?_, by simp [locate, hi]⟩
      simp [locate, hi, List.getD]
    · have hsum : i - c < t.sum := by
        simp only [List.sum_cons] at h
        omega
      obtain ⟨h1, h2, h3⟩ := ih (i - c) hsum
      have hl : locate (c :: t) i = ((locate t (i - c)).1 + 1, (locate t (i - c)).2) := by
        simp [locate, hi]
      refine ⟨?_, ?_, ?_⟩
      · rw [hl]; simpa using h1
      · rw [hl]; simpa using h2
      · rw [hl]
        simp only [List.take_succ_cons, List.sum_cons]
        omega

/-! ## Claim theorems -/

/-- Claim C2: for 1-D axes of length ≥ 2, the raster descriptor built by
`xy_to_raster_source` has shape `(len(y), len(x))`,
`xmin = x.min() - (x[1]-x[0])/2`, `xmax = x.max() + (x[-1]-x[-2])/2`, and for
y uses the absolute half-distances `|y[1]-y[0]|/2` and `|y[-1]-y[-2]|/2`,
swapped when the y-axis is descending (`y[0] > y[-1]`), so that `ymin` is
`y.min()` minus the appropriate half-distance and `ymax` is `y.max()` plus the
other.  The minimum and maximum are characterized order-theoretically rather
than by the code's fold. -/
theorem xy_to_raster_source_spec (x y : List ℚ) (s : Option String)
    (hx : 2 ≤ x.length) (hy : 2 ≤ y.length) (mx Mx my My : ℚ)
    (hmx : mx ∈ x ∧ ∀ v ∈ x, mx ≤ v) (hMx : Mx ∈ x ∧ ∀ v ∈ x, v ≤ Mx)
    (hmy : my ∈ y ∧ ∀ v ∈ y, my ≤ v) (hMy : My ∈ y ∧ ∀ v ∈ y, v ≤ My) :
    (xy_to_raster_source x y s).nrows = y.length ∧
    (xy_to_raster_source x y s).ncols = x.length ∧
    (xy_to_raster_source x y s).xmin = mx - (x.getD 1 0 - x.getD 0 0) / 2 ∧
    (xy_to_raster_source x y s).xmax
      = Mx + (x.getD (x.length - 1) 0 - x.getD (x.length - 2) 0) / 2 ∧
    (y.getD 0 0 > y.getD (y.length - 1) 0 →
      (xy_to_raster_source x y s).ymin
          = my - |y.getD (y.length - 1) 0 - y.getD (y.length - 2) 0| / 2 ∧
      (xy_to_raster_source x y s).ymax = My + |y.getD 1 0 - y.getD 0 0| / 2) ∧
    (¬ y.getD 0 0 > y.getD (y.length - 1) 0 →
      (xy_to_raster_source x y s).ymin = my - |y.getD 1 0 - y.getD 0 0| / 2 ∧
      (xy_to_raster_source x y s).ymax
          = My + |y.getD (y.length - 1) 0 - y.getD (y.length - 2) 0| / 2) := by
  have hminx := listMin_eq x mx hmx.1 hmx.2
  have hmaxx := listMax_eq x Mx hMx.1 hMx.2
  have hminy := listMin_eq y my hmy.1 hmy.2
  have hmaxy := listMax_eq y My hMy.1 hMy.2
  refine ⟨?_, ?_, ?_, ?_, ?_, ?_⟩
  · simp [xy_to_raster_source]
  · simp [xy_to_raster_source]
  · simp [xy_to_raster_source, hminx]
  · simp [xy_to_raster_source, hmaxx]
  · intro h
    refine ⟨?_, ?_⟩ <;>
    · simp only [xy_to_raster_source]
      rw [if_pos h]
      simp [hminy, hmaxy]
  · intro h
    refine ⟨?_, ?_⟩ <;>
    · simp only [xy_to_raster_source]
      rw [if_neg h]
      simp [hminy, hmaxy]

/-- Witness for C2 at a concrete descending y-axis. -/
theorem xy_to_raster_source_spec_witness :
    (xy_to_raster_source [0, 1] [3, 1] Option.none).nrows = 2 ∧
    (xy_to_raster_source [0, 1] [3, 1] Option.none).ymin
      = 1 - |(1 : ℚ) - 3| / 2 := by
  have h := xy_to_raster_source_spec [0, 1] [3, 1] Option.none (by norm_num)
    (by norm_num) 0 1 1 3
    (by constructor <;> norm_num) (by constructor <;> norm_num)
    (by constructor <;> norm_num) (by constructor <;> norm_num)
  refine ⟨h.1, ?_⟩
  have h5 := h.2.2.2.2.1 (by norm_num)
  simpa using h5.1

/-- Claim C6: the value dtype is unsigned 8-bit exactly for weighting mode
"none" and 64-bit float for every other mode, both as `get_dtype` decides it
and as recorded on the sparse result of the single-block computer. -/
theorem coverage_dtype_spec {G : Type} (cw : CoverageWeightsKind)
    (geoms : GeoDataFrame G) (x y : List ℚ) (engine : Engine G) :
    (get_dtype cw geoms = DType.uint8 ↔ cw = CoverageWeightsKind.none) ∧
    (np_coverage_core x y geoms cw engine).dtype = get_dtype cw geoms := by
  cases cw <;> simp [get_dtype, np_coverage_core]

/-- Claim C7: `dask_coverage` raises its descriptive chunk-size error exactly
when some x-axis or y-axis chunk has size 1; in that case the result does not
depend on the overlay engine at all (no block is dispatched), and a
geometry-axis chunk of size 1 is accepted (the condition never inspects the
geometry chunking, and absent the condition the call succeeds). -/
theorem dask_coverage_guard_spec {G : Type} (xs ys : List (List ℚ))
    (gs : List (List G)) (cw : CoverageWeightsKind) (st : Strategy) (crs : CRS) :
    (∀ engine : Engine G,
      (dask_coverage xs ys gs cw st crs engine
          = Except.error "exactextract does not support a chunksize of 1. Please rechunk to avoid this")
        ↔ (1 ∈ xs.map List.length ∨ 1 ∈ ys.map List.length)) ∧
    ((1 ∈ xs.map List.length ∨ 1 ∈ ys.map List.length) →
      ∀ e1 e2 : Engine G,
        dask_coverage xs ys gs cw st crs e1 = dask_coverage xs ys gs cw st crs e2) ∧
    (¬ (1 ∈ xs.map List.length ∨ 1 ∈ ys.map List.length) →
      ∀ engine : Engine G,
        (dask_coverage xs ys gs cw st crs engine).isOk = true) := by
  by_cases hcond : 1 ∈ xs.map List.length ∨ 1 ∈ ys.map List.length
  · have hany : ((xs.map List.length).any (fun c => c = 1) ||
        (ys.map List.length).any (fun c => c = 1)) = true := by
      rcases hcond with h | h
      · exact Bool.or_eq_true_iff.mpr (Or.inl (List.any_eq_true.mpr ⟨1, h, by simp⟩))
      · exact Bool.or_eq_true_iff.mpr (Or.inr (List.any_eq_true.mpr ⟨1, h, by simp⟩))
    have hcond' : (∃ a ∈ xs, a.length = 1) ∨ ∃ a ∈ ys, a.length = 1 := by
      simpa using hcond
    refine ⟨fun engine => ?_, fun _ e1 e2 => ?_, fun hn => absurd hcond hn⟩
    · simp [dask_coverage, hany, hcond']
    · simp [dask_coverage, hany]
  · have hany : ((xs.map List.length).any (fun c => c = 1) ||
        (ys.map List.length).any (fun c => c = 1)) = false := by
      push_neg at hcond
      refine Bool.or_eq_false_iff.mpr ⟨?_, ?_⟩
      · refine List.any_eq_false.mpr fun c hc => ?_
        simp only [decide_eq_true_eq]
        intro h1
        exact hcond.1 (h1 ▸ hc)
      · refine List.any_eq_false.mpr fun c hc => ?_
        simp only [decide_eq_true_eq]
        intro h1
        exact hcond.2 (h1 ▸ hc)
    have hcond' : (∀ c ∈ xs, ¬c.length = 1) ∧ ∀ c ∈ ys, ¬c.length = 1 := by
      push_neg at hcond
      constructor
      · intro c hc h1
        exact hcond.1 (List.mem_map.mpr ⟨c, hc, h1⟩)
      · intro c hc h1
        exact hcond.2 (List.mem_map.mpr ⟨c, hc, h1⟩)
    refine ⟨fun engine => ?_, fun hc => absurd hc hcond, fun _ engine => ?_⟩
    · simp only [dask_coverage, hany, Bool.false_eq_true, if_false]
      simp only [Except.error.injEq, reduceCtorEq, false_iff]
      intro hc
      exact hcond (by simpa using hc)
    · simp [dask_coverage, hany, Except.isOk, Except.toBool]

/-- Witness for C7: a size-1 x chunk is rejected independently of the engine,
and a size-1 geometry chunk with well-sized x/y chunks is accepted. -/
theorem dask_coverage_guard_spec_witness :
    (dask_coverage [[0]] [[0, 1]] [[()]] CoverageWeightsKind.fraction
        DEFAULT_STRATEGY { wkt := "W" } (fun _ _ _ => [])
      = Except.error "exactextract does not support a chunksize of 1. Please rechunk to avoid this") ∧
    (dask_coverage [[0, 1]] [[0, 1]] [[()]] CoverageWeightsKind.fraction
        DEFAULT_STRATEGY { wkt := "W" } (fun _ _ _ => [])).isOk = true := by
  constructor
  · exact ((dask_coverage_guard_spec [[0]] [[0, 1]] [[()]] CoverageWeightsKind.fraction
      DEFAULT_STRATEGY { wkt := "W" }).1 (fun _ _ _ => [])).mpr (by norm_num)
  · exact (dask_coverage_guard_spec [[0, 1]] [[0, 1]] [[()]] CoverageWeightsKind.fraction
      DEFAULT_STRATEGY { wkt := "W" }).2.2 (by norm_num) (fun _ _ _ => [])

theorem getD_mem (l : List ℚ) (n : ℕ) (h : n < l.length) : l.getD n 0 ∈ l := by
  rw [List.getD_eq_getElem l 0 h]; exact List.getElem_mem h

theorem listMin_le (l : List ℚ) : ∀ v ∈ l, listMin l ≤ v := by
  intro v hv
  match l, hv with
  | a :: t, hv =>
    rcases List.mem_cons.mp hv with h | h
    · exact h ▸ foldl_min_le_init t a
    · exact foldl_min_le_mem t a v h

theorem listMax_ge (l : List ℚ) : ∀ v ∈ l, v ≤ listMax l := by
  intro v hv
  match l, hv with
  | a :: t, hv =>
    rcases List.mem_cons.mp hv with h | h
    · exact h ▸ foldl_max_ge_init t a
    · exact foldl_max_ge_mem t a v h

theorem listMin_mem (l : List ℚ) (h : l ≠ []) : listMin l ∈ l := by
  match l, h with
  | a :: t, _ => exact foldl_min_mem t a

theorem listMax_mem (l : List ℚ) (h : l ≠ []) : listMax l ∈ l := by
  match l, h with
  | a :: t, _ => exact foldl_max_mem t a

theorem listMin_reverse (l : List ℚ) : listMin l.reverse = listMin l := by
  cases l with
  | nil => rfl
  | cons a t =>
    refine listMin_eq _ _ ?_ ?_
    · rw [List.mem_reverse]
      exact listMin_mem (a :: t) (by simp)
    · intro v hv
      rw [List.mem_reverse] at hv
      exact listMin_le (a :: t) v hv

theorem listMax_reverse (l : List ℚ) : listMax l.reverse = listMax l := by
  cases l with
  | nil => rfl
  | cons a t =>
    refine listMax_eq _ _ ?_ ?_
    · rw [List.mem_reverse]
      exact listMax_mem (a :: t) (by simp)
    · intro v hv
      rw [List.mem_reverse] at hv
      exact listMax_ge (a :: t) v hv

theorem getD_reverse (l : List ℚ) (i : ℕ) (h : i < l.length) :
    l.reverse.getD i 0 = l.getD (l.length - 1 - i) 0 := by
  rw [List.getD_eq_getElem _ 0 (by simpa using h),
    List.getD_eq_getElem _ 0 (show l.length - 1 - i < l.length by omega),
    List.getElem_reverse]

theorem chain_adj {R : ℚ → ℚ → Prop} (l : List ℚ) (h : List.Chain' R l) (i : ℕ)
    (hi : i + 1 < l.length) : R (l.getD i 0) (l.getD (i + 1) 0) := by
  have := List.chain'_iff_get.mp h i (by omega)
  rw [List.getD_eq_getElem _ 0 (by omega), List.getD_eq_getElem _ 0 hi]
  simpa [List.get_eq_getElem] using this

theorem chainLt_head_lt_last (y : List ℚ) (h : List.Chain' (· < ·) y)
    (h2 : 2 ≤ y.length) : y.getD 0 0 < y.getD (y.length - 1) 0 :=
  lt_of_lt_of_le (chain_adj y h 0 (by omega))
    (chainLt_le_last y h _ (getD_mem y 1 (by omega)))

theorem chainGt_head_gt_last (y : List ℚ) (h : List.Chain' (· > ·) y)
    (h2 : 2 ≤ y.length) : y.getD (y.length - 1) 0 < y.getD 0 0 :=
  lt_of_le_of_lt (chainGt_last_le y h _ (getD_mem y 1 (by omega)))
    (chain_adj y h 0 (by omega))

/-- The y-side of the bounding box is invariant under reversing the y-axis, as
long as the first and last centers differ (in particular for any strictly
monotonic axis): the absolute half-distances and the descending swap undo the
reversal. -/
theorem ymin_ymax_reverse (x y : List ℚ) (s : Option String)
    (hy2 : 2 ≤ y.length) (hne : y.getD 0 0 ≠ y.getD (y.length - 1) 0) :
    (xy_to_raster_source x y.reverse s).ymin = (xy_to_raster_source x y s).ymin ∧
    (xy_to_raster_source x y.reverse s).ymax = (xy_to_raster_source x y s).ymax := by
  have hlen : y.reverse.length = y.length := List.length_reverse y
  have hr0 : y.reverse.getD 0 0 = y.getD (y.length - 1) 0 := by
    rw [getD_reverse y 0 (by omega)]
    congr 1
  have hr1 : y.reverse.getD 1 0 = y.getD (y.length - 2) 0 := by
    rw [getD_reverse y 1 (by omega)]
    congr 1
  have hrL : y.reverse.getD (y.reverse.length - 1) 0 = y.getD 0 0 := by
    rw [hlen, getD_reverse y (y.length - 1) (by omega)]
    congr 1
    omega
  have hrL2 : y.reverse.getD (y.reverse.length - 2) 0 = y.getD 1 0 := by
    rw [hlen, getD_reverse y (y.length - 2) (by omega)]
    congr 1
    omega
  rcases lt_or_gt_of_ne hne with hlt | hgt
  · have hcnd : ¬ y.getD 0 0 > y.getD (y.length - 1) 0 := not_lt.mpr (le_of_lt hlt)
    have hcndr : y.reverse.getD 0 0 > y.reverse.getD (y.reverse.length - 1) 0 := by
      rw [hr0, hrL]; exact hlt
    constructor <;>
    · simp only [xy_to_raster_source]
      rw [if_pos hcndr, if_neg hcnd]
      simp only [hr0, hr1, hrL, hrL2, listMin_reverse, listMax_reverse]
      rw [abs_sub_comm]
  · have hcnd : y.getD 0 0 > y.getD (y.length - 1) 0 := hgt
    have hcndr : ¬ y.reverse.getD 0 0 > y.reverse.getD (y.reverse.length - 1) 0 := by
      rw [hr0, hrL]; exact not_lt.mpr (le_of_lt hgt)
    constructor <;>
    · simp only [xy_to_raster_source]
      rw [if_neg hcndr, if_pos hcnd]
      simp only [hr0, hr1, hrL, hrL2, listMin_reverse, listMax_reverse]
      rw [abs_sub_comm]

/-- Claim C3 (amended): for a strictly monotonic axis of length ≥ 2, the
half-cell-extension and direction-reversal properties hold for the y-axis in
both directions, and for the x-axis only in ascending order: an ascending x
gives `xmin`/`xmax` extended half the boundary cell width beyond the boundary
centers, an ascending or descending y gives `ymin`/`ymax` extended half the
boundary cell width beyond the spatial min/max centers, and reversing the
y-axis leaves (ymin, ymax) unchanged.  (A descending x-axis violates the
original claim, see the counterexample.) -/
theorem bbox_monotone_spec (x y : List ℚ) (s : Option String)
    (hx2 : 2 ≤ x.length) (hy2 : 2 ≤ y.length) :
    (List.Chain' (· < ·) x →
      (xy_to_raster_source x y s).xmin
          = x.getD 0 0 - (x.getD 1 0 - x.getD 0 0) / 2 ∧
      (xy_to_raster_source x y s).xmax
          = x.getD (x.length - 1) 0
            + (x.getD (x.length - 1) 0 - x.getD (x.length - 2) 0) / 2) ∧
    (List.Chain' (· < ·) y →
      (xy_to_raster_source x y s).ymin
          = y.getD 0 0 - (y.getD 1 0 - y.getD 0 0) / 2 ∧
      (xy_to_raster_source x y s).ymax
          = y.getD (y.length - 1) 0
            + (y.getD (y.length - 1) 0 - y.getD (y.length - 2) 0) / 2) ∧
    (List.Chain' (· > ·) y →
      (xy_to_raster_source x y s).ymin
          = y.getD (y.length - 1) 0
            - (y.getD (y.length - 2) 0 - y.getD (y.length - 1) 0) / 2 ∧
      (xy_to_raster_source x y s).ymax
          = y.getD 0 0 + (y.getD 0 0 - y.getD 1 0) / 2) ∧
    (List.Chain' (· < ·) y ∨ List.Chain' (· > ·) y →
      (xy_to_raster_source x y.reverse s).ymin = (xy_to_raster_source x y s).ymin ∧
      (xy_to_raster_source x y.reverse s).ymax = (xy_to_raster_source x y s).ymax) := by
  refine ⟨?_, ?_, ?_, ?_⟩
  · intro hc
    have hminx : listMin x = x.getD 0 0 :=
      listMin_eq _ _ (getD_mem x 0 (by omega)) (chainLt_head_le x hc)
    have hmaxx : listMax x = x.getD (x.length - 1) 0 :=
      listMax_eq _ _ (getD_mem x _ (by omega)) (chainLt_le_last x hc)
    constructor <;> simp [xy_to_raster_source, hminx, hmaxx]
  · intro hc
    have hminy : listMin y = y.getD 0 0 :=
      listMin_eq _ _ (getD_mem y 0 (by omega)) (chainLt_head_le y hc)
    have hmaxy : listMax y = y.getD (y.length - 1) 0 :=
      listMax_eq _ _ (getD_mem y _ (by omega)) (chainLt_le_last y hc)
    have hcnd : ¬ y.getD 0 0 > y.getD (y.length - 1) 0 :=
      not_lt.mpr (le_of_lt (chainLt_head_lt_last y hc hy2))
    have habs0 : |y.getD 1 0 - y.getD 0 0| = y.getD 1 0 - y.getD 0 0 :=
      abs_of_nonneg (sub_nonneg.mpr (le_of_lt (chain_adj y hc 0 (by omega))))
    have hadj1 : y.getD (y.length - 2) 0 < y.getD (y.length - 1) 0 := by
      have h := chain_adj y hc (y.length - 2) (by omega)
      have he : y.length - 2 + 1 = y.length - 1 := by omega
      rwa [he] at h
    have habs1 : |y.getD (y.length - 1) 0 - y.getD (y.length - 2) 0|
        = y.getD (y.length - 1) 0 - y.getD (y.length - 2) 0 :=
      abs_of_nonneg (sub_nonneg.mpr (le_of_lt hadj1))
    simp only [List.getD_eq_getElem?_getD] at habs0 habs1
    refine ⟨?_, ?_⟩ <;>
    · simp only [xy_to_raster_source]
      rw [if_neg hcnd]
      simp [hminy, hmaxy, habs0, habs1]
  · intro hc
    have hminy : listMin y = y.getD (y.length - 1) 0 :=
      listMin_eq _ _ (getD_mem y _ (by omega)) (chainGt_last_le y hc)
    have hmaxy : listMax y = y.getD 0 0 :=
      listMax_eq _ _ (getD_mem y 0 (by omega)) (chainGt_le_head y hc)
    have hcnd : y.getD 0 0 > y.getD (y.length - 1) 0 :=
      chainGt_head_gt_last y hc hy2
    have habs0 : |y.getD 1 0 - y.getD 0 0| = y.getD 0 0 - y.getD 1 0 := by
      rw [abs_sub_comm]
      exact abs_of_nonneg (sub_nonneg.mpr (le_of_lt (chain_adj y hc 0 (by omega))))
    have hadj1 : y.getD (y.length - 1) 0 < y.getD (y.length - 2) 0 := by
      have h := chain_adj y hc (y.length - 2) (by omega)
      have he : y.length - 2 + 1 = y.length - 1 := by omega
      rwa [he] at h
    have habs1 : |y.getD (y.length - 1) 0 - y.getD (y.length - 2) 0|
        = y.getD (y.length - 2) 0 - y.getD (y.length - 1) 0 := by
      rw [abs_sub_comm]
      exact abs_of_nonneg (sub_nonneg.mpr (le_of_lt hadj1))
    simp only [List.getD_eq_getElem?_getD] at habs0 habs1
    refine ⟨?_, ?_⟩ <;>
    · simp only [xy_to_raster_source]
      rw [if_pos hcnd]
      simp [hminy, hmaxy, habs0, habs1]
  · intro hdir
    have hne : y.getD 0 0 ≠ y.getD (y.length - 1) 0 := by
      rcases hdir with hc | hc
      · exact ne_of_lt (chainLt_head_lt_last y hc hy2)
      · exact ne_of_gt (chainGt_head_gt_last y hc hy2)
    exact ymin_ymax_reverse x y s hy2 hne

/-- Witness for C3 at concrete monotonic axes. -/
theorem bbox_monotone_spec_witness :
    (xy_to_raster_source [0, 1] [4, 2, 1] Option.none).ymin
        = 1 - ((2 : ℚ) - 1) / 2 ∧
    (xy_to_raster_source [0, 1] (List.reverse [4, 2, 1]) Option.none).ymin
        = (xy_to_raster_source [0, 1] [4, 2, 1] Option.none).ymin := by
  have h := bbox_monotone_spec [0, 1] [4, 2, 1] Option.none (by norm_num) (by norm_num)
  have hdesc : List.Chain' (· > ·) [(4 : ℚ), 2, 1] := by
    simp only [List.chain'_cons, List.chain'_singleton, and_true]
    norm_num
  refine ⟨?_, (h.2.2.2 (Or.inr hdesc)).1⟩
  have h3 := (h.2.2.1 hdesc).1
  simpa using h3

/-- Counterexample to claim C3 as stated: for the strictly decreasing x-axis
`[3, 2, 1]` (the reversal of the strictly increasing `[1, 2, 3]`), the computed
xmin differs from the xmin of the reversed axis, so reversing a strictly
monotonic x-axis does not preserve the absolute (xmin, xmax) interval — the
x-side applies no absolute value or swap. -/
theorem bbox_reversal_x_counterexample :
    (xy_to_raster_source (List.reverse [1, 2, 3]) [0, 1] Option.none).xmin
      ≠ (xy_to_raster_source [1, 2, 3] [0, 1] Option.none).xmin := by
  have hrev : (List.reverse [1, 2, 3] : List ℚ) = [3, 2, 1] := by simp
  rw [hrev]
  simp only [xy_to_raster_source]
  norm_num [listMin, listMax, List.foldl, min_def, max_def,
    List.getD_cons_succ, List.getD_cons_zero]

theorem getD_mem_of_lt {α : Type} (l : List α) (n : ℕ) (d : α)
    (h : n < l.length) : l.getD n d ∈ l := by
  rw [List.getD_eq_getElem l d h]; exact List.getElem_mem h

theorem range_map_getD_sum {α : Type} (l : List α) (d : α) (f : α → ℕ) :
    ((List.range l.length).map fun i => f (l.getD i d)).sum = (l.map f).sum := by
  induction l with
  | nil => simp
  | cons a t ih =>
    rw [List.length_cons, List.range_succ_eq_map]
    rw [List.map_cons, List.sum_cons, List.map_map]
    have hfun : ((fun i => f ((a :: t).getD i d)) ∘ Nat.succ)
        = fun i => f (t.getD i d) := by
      funext i
      simp
    rw [List.getD_cons_zero, hfun, ih, List.map_cons, List.sum_cons]

/-- A COO index that is not among the stored coordinates reads as the fill
value 0 in the dense equivalent. -/
theorem dense_eq_zero_of_not_mem (a : COO) (idx : ℕ × ℕ × ℕ)
    (h : idx ∉ a.coords) : a.dense idx = 0 := by
  unfold COO.dense
  have hfil : (a.coords.zip a.data).filter (fun p => p.1 = idx) = [] := by
    rw [List.filter_eq_nil_iff]
    intro p hp
    have hp1 : p.1 ∈ a.coords := (List.of_mem_zip hp).1
    simp only [decide_eq_true_eq]
    intro he
    exact h (he ▸ hp1)
  rw [hfil]
  simp

/-- Claim C4: under the engine contract (one result row per geometry), the
number of stored entries of the sparse block result equals the sum over all
geometries of the engine-reported per-geometry intersected-cell count, the
single-column check passes, and geometries with an empty cell-id list simply
contribute no entries — no error is raised. -/
theorem np_coverage_count_spec {G : Type} (x y : List ℚ)
    (geoms : GeoDataFrame G) (st : Strategy) (cw : CoverageWeightsKind)
    (engine : Engine G)
    (hcols : geoms.columns.length ≤ 1)
    (hrows : (engine (xy_to_raster_source x y (some geoms.crs.wkt))
        geoms.geometry cw).length = geoms.geometry.length) :
    np_coverage x y geoms st cw engine
      = Except.ok (np_coverage_core x y geoms cw engine) ∧
    (np_coverage_core x y geoms cw engine).coords.length
      = ((engine (xy_to_raster_source x y (some geoms.crs.wkt))
          geoms.geometry cw).map (fun r => r.cell_id.length)).sum := by
  constructor
  · unfold np_coverage
    rw [if_neg (by omega)]
  · simp only [np_coverage_core, List.length_map, List.length_flatMap,
      List.length_range]
    simp only [Function.comp_def, List.length_map, List.length_range]
    rw [← hrows]
    exact range_map_getD_sum _ emptyRow fun r => r.cell_id.length

/-- Witness for C4: one geometry with two cells and one geometry with none. -/
theorem np_coverage_count_spec_witness :
    np_coverage [0, 1] [0, 1]
        { columns := ["geometry"], geometry := [0, 1], crs := { wkt := "W" } }
        DEFAULT_STRATEGY CoverageWeightsKind.fraction
        (fun _ _ _ => [{ cell_id := [0, 3], coverage := [1, 1] }, emptyRow])
      = Except.ok (np_coverage_core [0, 1] [0, 1]
          { columns := ["geometry"], geometry := [0, 1], crs := { wkt := "W" } }
          CoverageWeightsKind.fraction
          (fun _ _ _ => [{ cell_id := [0, 3], coverage := [1, 1] }, emptyRow])) ∧
    (np_coverage_core [0, 1] [0, 1]
        { columns := ["geometry"], geometry := [0, 1], crs := { wkt := "W" } }
        CoverageWeightsKind.fraction
        (fun _ _ _ => [{ cell_id := [0, 3], coverage := [1, 1] }, emptyRow])).coords.length
      = 2 := by
  have h := np_coverage_count_spec (G := ℕ) [0, 1] [0, 1]
    { columns := ["geometry"], geometry := [0, 1], crs := { wkt := "W" } }
    DEFAULT_STRATEGY CoverageWeightsKind.fraction
    (fun _ _ _ => [{ cell_id := [0, 3], coverage := [1, 1] }, emptyRow])
    (by norm_num) (by norm_num)
  refine ⟨h.1, ?_⟩
  rw [h.2]
  norm_num [emptyRow]

/-- Claim C5: under the engine contract (one row per geometry, parallel
cell-id/coverage lists, and stored coverage values that are nonzero after the
dtype cast), a triple `(g, yi, xi)` whose cell was not reported by the engine
for geometry `g` is not a stored coordinate and reads as the fill value 0 in
the dense equivalent, and no stored value of the sparse result is zero. -/
theorem np_coverage_sparsity_spec {G : Type} (x y : List ℚ)
    (geoms : GeoDataFrame G) (cw : CoverageWeightsKind) (engine : Engine G)
    (hrows : (engine (xy_to_raster_source x y (some geoms.crs.wkt))
        geoms.geometry cw).length = geoms.geometry.length)
    (hpar : ∀ r ∈ engine (xy_to_raster_source x y (some geoms.crs.wkt))
        geoms.geometry cw, r.coverage.length = r.cell_id.length)
    (hnz : ∀ r ∈ engine (xy_to_raster_source x y (some geoms.crs.wkt))
        geoms.geometry cw, ∀ v ∈ r.coverage, castDType (get_dtype cw geoms) v ≠ 0)
    (g yi xi : ℕ)
    (hnr : ∀ c ∈ ((engine (xy_to_raster_source x y (some geoms.crs.wkt))
        geoms.geometry cw).getD g emptyRow).cell_id,
        ¬(c / x.length = yi ∧ c % x.length = xi)) :
    ((g, yi, xi) ∉ (np_coverage_core x y geoms cw engine).coords ∧
      (np_coverage_core x y geoms cw engine).dense (g, yi, xi) = 0) ∧
    ∀ v ∈ (np_coverage_core x y geoms cw engine).data, v ≠ 0 := by
  have hnotmem : (g, yi, xi) ∉ (np_coverage_core x y geoms cw engine).coords := by
    intro hmem
    simp only [np_coverage_core, List.mem_map, List.mem_flatMap,
      List.mem_range] at hmem
    obtain ⟨p, ⟨i, hi, k, hk, hp⟩, hfst⟩ := hmem
    rw [← hp] at hfst
    simp only [Prod.mk.injEq] at hfst
    obtain ⟨hig, hyi, hxi⟩ := hfst
    subst hig
    exact hnr _ (getD_mem_of_lt _ k 0 hk) ⟨hyi, hxi⟩
  refine ⟨⟨hnotmem, dense_eq_zero_of_not_mem _ _ hnotmem⟩, ?_⟩
  intro v hv
  simp only [np_coverage_core, List.mem_map, List.mem_flatMap,
    List.mem_range] at hv
  obtain ⟨p, ⟨i, hi, k, hk, hp⟩, hsnd⟩ := hv
  rw [← hp] at hsnd
  simp only at hsnd
  have hrowmem : (engine (xy_to_raster_source x y (some geoms.crs.wkt))
      geoms.geometry cw).getD i emptyRow
      ∈ engine (xy_to_raster_source x y (some geoms.crs.wkt)) geoms.geometry cw :=
    getD_mem_of_lt _ i emptyRow (by omega)
  have hklt : k < ((engine (xy_to_raster_source x y (some geoms.crs.wkt))
      geoms.geometry cw).getD i emptyRow).coverage.length := by
    rw [hpar _ hrowmem]
    exact hk
  rw [← hsnd]
  exact hnz _ hrowmem _ (getD_mem_of_lt _ k 0 hklt)

/-- Witness for C5: the engine reports cell 3 for the single geometry; the
unreported cell (0, 0, 0) is absent and dense-0, and no stored value is 0. -/
theorem np_coverage_sparsity_spec_witness :
    ((0, 0, 0) ∉ (np_coverage_core [0, 1] [0, 1]
        { columns := ["geometry"], geometry := [0], crs := { wkt := "W" } }
        CoverageWeightsKind.fraction
        (fun _ _ _ => [{ cell_id := [3], coverage := [1/2] }])).coords ∧
      (np_coverage_core [0, 1] [0, 1]
        { columns := ["geometry"], geometry := [0], crs := { wkt := "W" } }
        CoverageWeightsKind.fraction
        (fun _ _ _ => [{ cell_id := [3], coverage := [1/2] }])).dense (0, 0, 0) = 0) ∧
    ∀ v ∈ (np_coverage_core [0, 1] [0, 1]
        { columns := ["geometry"], geometry := [0], crs := { wkt := "W" } }
        CoverageWeightsKind.fraction
        (fun _ _ _ => [{ cell_id := [3], coverage := [1/2] }])).data, v ≠ 0 := by
  refine np_coverage_sparsity_spec (G := ℕ) [0, 1] [0, 1]
    { columns := ["geometry"], geometry := [0], crs := { wkt := "W" } }
    CoverageWeightsKind.fraction
    (fun _ _ _ => [{ cell_id := [3], coverage := [1/2] }])
    (by norm_num) ?_ ?_ 0 0 0 ?_
  · intro r hr
    simp only [List.mem_singleton] at hr
    subst hr
    norm_num
  · intro r hr v hv
    simp only [List.mem_singleton] at hr
    subst hr
    simp only [List.mem_singleton] at hv
    subst hv
    norm_num [castDType, get_dtype]
  · intro c hc
    simp only [List.getD_cons_zero, List.mem_singleton] at hc
    subst hc
    norm_num

/-- Claim C1 (amended): for every chunk layout whose x and y chunks all have
size ≥ 2, if the overlay-engine model is restriction-compatible — the dense
value of each block's single-block result at block-local coordinates equals the
dense value of the unpartitioned single-block result at the corresponding
global coordinates — then the dense equivalent of the block grid produced by
`dask_coverage` agrees everywhere with the dense equivalent of the result of
`np_coverage` on the unpartitioned inputs; in particular any two such layouts
produce the same dense-equivalent array.  (Without the compatibility condition
the claim fails, see the counterexample.) -/
theorem dask_np_dense_equiv {G : Type} (xs ys : List (List ℚ))
    (gs : List (List G)) (cols : List String) (crs : CRS)
    (cw : CoverageWeightsKind) (st : Strategy) (engine : Engine G)
    (hx : ∀ c ∈ xs, 2 ≤ c.length) (hy : ∀ c ∈ ys, 2 ≤ c.length)
    (hcompat : ∀ bg bi bj og oi oj, bg < gs.length → bi < ys.length →
      bj < xs.length → og < (gs.getD bg []).length → oi < (ys.getD bi []).length →
      oj < (xs.getD bj []).length →
      (np_coverage_core (xs.getD bj []) (ys.getD bi [])
          { columns := ["geometry"], geometry := gs.getD bg [], crs := crs }
          cw engine).dense (og, oi, oj)
        = (np_coverage_core xs.flatten ys.flatten
            { columns := cols, geometry := gs.flatten, crs := crs }
            cw engine).dense
            (((gs.map List.length).take bg).sum + og,
              ((ys.map List.length).take bi).sum + oi,
              ((xs.map List.length).take bj).sum + oj))
    (grid : List (List (List (Except String COO))))
    (hgrid : dask_coverage xs ys gs cw st crs engine = Except.ok grid)
    (full : COO)
    (hfull : np_coverage xs.flatten ys.flatten
        { columns := cols, geometry := gs.flatten, crs := crs } st cw engine
      = Except.ok full)
    (g i j : ℕ) (hg : g < gs.flatten.length) (hi : i < ys.flatten.length)
    (hj : j < xs.flatten.length) :
    gridDense grid (gs.map List.length) (ys.map List.length)
        (xs.map List.length) g i j
      = full.dense (g, i, j) := by
  have hfull' : full = np_coverage_core xs.flatten ys.flatten
      { columns := cols, geometry := gs.flatten, crs := crs } cw engine := by
    unfold np_coverage at hfull
    by_cases hc : cols.length > 1
    · rw [if_pos hc] at hfull
      exact absurd hfull (by simp)
    · rw [if_neg hc] at hfull
      exact (Except.ok.inj hfull).symm
  have hanyx : ((xs.map List.length).any fun c => c = 1) = false := by
    rw [List.any_eq_false]
    intro c hc
    obtain ⟨l, hl, rfl⟩ := List.mem_map.mp hc
    have := hx l hl
    simp only [decide_eq_true_eq]
    omega
  have hanyy : ((ys.map List.length).any fun c => c = 1) = false := by
    rw [List.any_eq_false]
    intro c hc
    obtain ⟨l, hl, rfl⟩ := List.mem_map.mp hc
    have := hy l hl
    simp only [decide_eq_true_eq]
    omega
  have hgrid' : grid = gs.map fun gb => ys.map fun yb => xs.map fun xb =>
      coverage_np_dask_wrapper gb xb yb cw st crs engine := by
    unfold dask_coverage at hgrid
    rw [hanyx, hanyy] at hgrid
    simp only [Bool.or_self, Bool.false_eq_true, if_false] at hgrid
    exact (Except.ok.inj hgrid).symm
  have hsumg : (gs.map List.length).sum = gs.flatten.length :=
    (List.length_flatten gs).symm
  have hsumy : (ys.map List.length).sum = ys.flatten.length :=
    (List.length_flatten ys).symm
  have hsumx : (xs.map List.length).sum = xs.flatten.length :=
    (List.length_flatten xs).symm
  obtain ⟨hbg, hog, hoffg⟩ :=
    locate_spec (gs.map List.length) g (by rw [hsumg]; exact hg)
  obtain ⟨hbi, hoi, hoffi⟩ :=
    locate_spec (ys.map List.length) i (by rw [hsumy]; exact hi)
  obtain ⟨hbj, hoj, hoffj⟩ :=
    locate_spec (xs.map List.length) j (by rw [hsumx]; exact hj)
  rw [List.length_map] at hbg hbi hbj
  rw [getD_map_length] at hog hoi hoj
  have h1 : grid.getD (locate (gs.map List.length) g).1 []
      = ys.map fun yb => xs.map fun xb =>
          coverage_np_dask_wrapper (gs.getD (locate (gs.map List.length) g).1 [])
            xb yb cw st crs engine := by
    rw [hgrid']
    exact getD_map_of_lt gs _ _ [] [] hbg
  have h2 : (grid.getD (locate (gs.map List.length) g).1 []).getD
        (locate (ys.map List.length) i).1 []
      = xs.map fun xb =>
          coverage_np_dask_wrapper (gs.getD (locate (gs.map List.length) g).1 [])
            xb (ys.getD (locate (ys.map List.length) i).1 []) cw st crs engine := by
    rw [h1]
    exact getD_map_of_lt ys _ _ [] [] hbi
  have h3 : ((grid.getD (locate (gs.map List.length) g).1 []).getD
        (locate (ys.map List.length) i).1 []).getD
        (locate (xs.map List.length) j).1 (Except.error "")
      = coverage_np_dask_wrapper (gs.getD (locate (gs.map List.length) g).1 [])
          (xs.getD (locate (xs.map List.length) j).1 [])
          (ys.getD (locate (ys.map List.length) i).1 []) cw st crs engine := by
    rw [h2]
    exact getD_map_of_lt xs _ _ [] (Except.error "") hbj
  have hwrap : coverage_np_dask_wrapper
        (gs.getD (locate (gs.map List.length) g).1 [])
        (xs.getD (locate (xs.map List.length) j).1 [])
        (ys.getD (locate (ys.map List.length) i).1 []) cw st crs engine
      = Except.ok (np_coverage_core (xs.getD (locate (xs.map List.length) j).1 [])
          (ys.getD (locate (ys.map List.length) i).1 [])
          { columns := ["geometry"],
            geometry := gs.getD (locate (gs.map List.length) g).1 [], crs := crs }
          cw engine) := by
    unfold coverage_np_dask_wrapper np_coverage
    rw [if_neg (by norm_num)]
  simp only [gridDense]
  rw [h3, hwrap]
  have hstep := hcompat (locate (gs.map List.length) g).1
    (locate (ys.map List.length) i).1 (locate (xs.map List.length) j).1
    (locate (gs.map List.length) g).2 (locate (ys.map List.length) i).2
    (locate (xs.map List.length) j).2 hbg hbi hbj hog hoi hoj
  rw [hoffg, hoffi, hoffj] at hstep
  rw [hfull']
  exact hstep

theorem flatMap_const_nil {α β : Type} (l : List α) :
    (l.flatMap fun _ => ([] : List β)) = [] := by
  induction l with
  | nil => rfl
  | cons a t ih => simpa using ih

/-- The block result of an empty engine report on a 1-geometry, 2×2 block. -/
def emptyBlockCOO : COO := ⟨(1, 2, 2), [], [], DType.float64, 0⟩

/-- The unpartitioned result of an empty engine report on a 1-geometry, 2×4
raster. -/
def emptyFullCOO : COO := ⟨(1, 2, 4), [], [], DType.float64, 0⟩

/-- Witness for C1 at a concrete two-x-chunk layout with an engine reporting
no intersections (restriction-compatible since every dense value is 0). -/
theorem dask_np_dense_equiv_witness :
    gridDense [[[Except.ok emptyBlockCOO, Except.ok emptyBlockCOO]]]
        [1] [2] [2, 2] 0 0 3
      = COO.dense emptyFullCOO (0, 0, 3) := by
  refine dask_np_dense_equiv (G := Unit) [[0, 1], [2, 3]] [[0, 1]] [[()]]
    ["geometry"] { wkt := "W" } CoverageWeightsKind.fraction DEFAULT_STRATEGY
    (fun _ _ _ => []) ?_ ?_ ?_ _ rfl _ rfl 0 0 3 (by norm_num) (by norm_num)
    (by norm_num)
  · intro c hc
    fin_cases hc <;> norm_num
  · intro c hc
    fin_cases hc <;> norm_num
  · intro bg bi bj og oi oj _ _ _ _ _ _
    simp [np_coverage_core, COO.dense, emptyRow, flatMap_const_nil]

/-- An overlay-engine model that inspects the block raster descriptor: it
reports cell 0 with coverage 1 exactly when the raster block is 4 columns
wide, and nothing otherwise.  It is a pure function of the raster descriptor
and the geometries, yet not restriction-compatible. -/
def blockWidthSensitiveEngine : Engine Unit := fun r _ _ =>
  if r.ncols = 4 then [⟨[0], [1]⟩] else [⟨[], []⟩]

/-- The unpartitioned result of `blockWidthSensitiveEngine` on the 2×4
raster: one stored entry at (0, 0, 0) with value 1. -/
def widthSensitiveFullCOO : COO := ⟨(1, 2, 4), [(0, 0, 0)], [1], DType.float64, 0⟩

/-- Counterexample to claim C1 as stated: with the overlay engine modelled as
an arbitrary fixed pure function of the block raster descriptor and block
geometries, the dense equivalent of the chunked result can differ from the
dense equivalent of the unpartitioned result (here at index (0, 0, 0) on a
4-cell x-axis split into two chunks of size 2): chunk-invariance does not hold
for every pure engine model, only for restriction-compatible ones. -/
theorem chunk_invariance_counterexample :
    np_coverage [0, 1, 2, 3] [0, 1]
        { columns := ["geometry"], geometry := [()], crs := { wkt := "W" } }
        DEFAULT_STRATEGY CoverageWeightsKind.fraction blockWidthSensitiveEngine
      = Except.ok widthSensitiveFullCOO ∧
    dask_coverage [[0, 1], [2, 3]] [[0, 1]] [[()]] CoverageWeightsKind.fraction
        DEFAULT_STRATEGY { wkt := "W" } blockWidthSensitiveEngine
      = Except.ok [[[Except.ok emptyBlockCOO, Except.ok emptyBlockCOO]]] ∧
    gridDense [[[Except.ok emptyBlockCOO, Except.ok emptyBlockCOO]]]
        [1] [2] [2, 2] 0 0 0
      ≠ COO.dense widthSensitiveFullCOO (0, 0, 0) := by
  refine ⟨rfl, rfl, ?_⟩
  norm_num [gridDense, locate, COO.dense, emptyBlockCOO, widthSensitiveFullCOO]


/-- The Mode Selector routes to the chunked path whenever the inputs are not
both fully in memory. -/
theorem coverage_dispatch_chunked {G : Type} (obj : XrObj) (geoms : GeoInput G)
    (st : Strategy) (cw : CoverageWeightsKind) (engine : Engine G) (s : String)
    (hs : obj.spatial_ref = some s)
    (hmem : is_in_memory obj geoms = false) :
    coverage obj geoms st cw engine
      = coverage_chunked obj geoms st cw engine s := by
  rcases obj with ⟨sr, xd, yd, xcs, ycs⟩
  simp only at hs
  subst hs
  unfold coverage
  cases xd <;> cases yd <;> cases geoms <;>
    simp [hmem]

/-- The Mode Selector routes to the in-memory path when the object carries
plain arrays and no chunk metadata and the geometry frame is in memory. -/
theorem coverage_dispatch_mem {G : Type} (xd yd : List ℚ)
    (gdf : GeoDataFrame G) (st : Strategy) (cw : CoverageWeightsKind)
    (engine : Engine G) (s : String) :
    coverage ⟨some s, ArrOrDask.arr xd, ArrOrDask.arr yd, Option.none, Option.none⟩
        (GeoInput.mem gdf) st cw engine
      = coverage_mem xd yd gdf st cw engine s := by
  unfold coverage
  simp [is_in_memory]

/-- Claim C8 (amended): on the in-memory path a geometry frame with more than
one column makes `coverage` raise the multiple-geometry-columns usage error,
for every overlay engine alike (the check precedes the engine call).  On the
chunked path no multiple-geometry-columns error exists: an in-memory frame
with more than one column only trips the axis-squeeze error, raised after
`dask_coverage` has already been invoked on the normalized inputs, and a
chunked geometry frame with any number of columns raises no column-related
error at all. -/
theorem coverage_column_check_spec {G : Type} (obj : XrObj)
    (gdf : GeoDataFrame G) (st : Strategy) (cw : CoverageWeightsKind)
    (s : String) (hs : obj.spatial_ref = some s)
    (hcols : gdf.columns.length > 1) :
    (is_in_memory obj (GeoInput.mem gdf) = true →
      ∀ engine : Engine G,
        coverage obj (GeoInput.mem gdf) st cw engine
          = Except.error "Require a single geometries column or a GeoSeries.") ∧
    (is_in_memory obj (GeoInput.mem gdf) = false →
      ∀ (engine : Engine G) (grid : List (List (List (Except String COO)))),
        dask_coverage (normalizeCoord obj.xdata obj.xchunksizes)
            (normalizeCoord obj.ydata obj.ychunksizes)
            [gdf.geometry] cw st gdf.crs engine = Except.ok grid →
        coverage obj (GeoInput.mem gdf) st cw engine
          = Except.error
              "cannot select an axis to squeeze out which has size not equal to one") ∧
    (∀ (cols : List String) (parts : List (List G)) (crs0 : CRS),
      cols.length > 1 →
      ∀ (engine : Engine G) (grid : List (List (List (Except String COO)))),
        dask_coverage (normalizeCoord obj.xdata obj.xchunksizes)
            (normalizeCoord obj.ydata obj.ychunksizes) parts cw st crs0 engine
          = Except.ok grid →
        coverage obj (GeoInput.daskgdf cols parts crs0) st cw engine
          = Except.ok (assemble cw s (CoverageData.dask grid)
              (GeomCoord.dask parts))) := by
  refine ⟨?_, ?_, ?_⟩
  · intro himem engine
    rcases obj with ⟨sr, xd, yd, xcs, ycs⟩
    simp only at hs
    subst hs
    cases xd with
    | dask cs => simp [is_in_memory] at himem
    | arr xdd =>
      cases yd with
      | dask cs => simp [is_in_memory] at himem
      | arr ydd =>
        simp only [is_in_memory, Bool.and_eq_true, Option.isNone_iff_eq_none] at himem
        obtain ⟨⟨⟨⟨-, -⟩, hxcs⟩, hycs⟩, -⟩ := himem
        subst hxcs
        subst hycs
        rw [coverage_dispatch_mem]
        unfold coverage_mem np_coverage
        rw [if_pos hcols]
  · intro himem engine grid hdask
    rw [coverage_dispatch_chunked obj _ st cw engine s hs himem]
    unfold coverage_chunked
    simp only [geometries_as_dask_array, GeoInput.crs]
    rw [hdask]
    have hsq : gdf_squeeze gdf = Except.error
        "cannot select an axis to squeeze out which has size not equal to one" := by
      unfold gdf_squeeze
      rw [if_neg (by omega)]
    simp [hsq, Except.map]
  · intro cols parts crs0 hc2 engine grid hdask
    rw [coverage_dispatch_chunked obj _ st cw engine s hs
      (by simp [is_in_memory])]
    unfold coverage_chunked
    simp only [geometries_as_dask_array, GeoInput.crs]
    rw [hdask]

/-- Witness for C8: a two-column in-memory frame errors with the column
message on the in-memory path, with the squeeze message on the chunked path,
and a two-column chunked frame succeeds. -/
theorem coverage_column_check_spec_witness :
    coverage (G := Unit)
        ⟨some "S", ArrOrDask.arr [0, 1], ArrOrDask.arr [0, 1], Option.none, Option.none⟩
        (GeoInput.mem ⟨["geometry", "extra"], [()], ⟨"W"⟩⟩)
        DEFAULT_STRATEGY CoverageWeightsKind.fraction (fun _ _ _ => [])
      = Except.error "Require a single geometries column or a GeoSeries." ∧
    coverage (G := Unit)
        ⟨some "S", ArrOrDask.dask [[0, 1]], ArrOrDask.arr [0, 1], Option.none, Option.none⟩
        (GeoInput.mem ⟨["geometry", "extra"], [()], ⟨"W"⟩⟩)
        DEFAULT_STRATEGY CoverageWeightsKind.fraction (fun _ _ _ => [])
      = Except.error
          "cannot select an axis to squeeze out which has size not equal to one" ∧
    coverage (G := Unit)
        ⟨some "S", ArrOrDask.dask [[0, 1]], ArrOrDask.arr [0, 1], Option.none, Option.none⟩
        (GeoInput.daskgdf ["geometry", "extra"] [[()]] ⟨"W"⟩)
        DEFAULT_STRATEGY CoverageWeightsKind.fraction (fun _ _ _ => [])
      = Except.ok (assemble CoverageWeightsKind.fraction "S"
          (CoverageData.dask [[[Except.ok emptyBlockCOO]]]) (GeomCoord.dask [[()]])) := by
  refine ⟨?_, ?_, ?_⟩
  · exact (coverage_column_check_spec _ _ DEFAULT_STRATEGY
      CoverageWeightsKind.fraction "S" rfl (by norm_num)).1 (by rfl) (fun _ _ _ => [])
  · exact (coverage_column_check_spec _ _ DEFAULT_STRATEGY
      CoverageWeightsKind.fraction "S" rfl (by norm_num)).2.1 (by rfl)
      (fun _ _ _ => []) [[[Except.ok emptyBlockCOO]]] rfl
  · exact (coverage_column_check_spec (G := Unit) _
      ⟨["geometry", "extra"], [()], ⟨"W"⟩⟩ DEFAULT_STRATEGY
      CoverageWeightsKind.fraction "S" rfl (by norm_num)).2.2
      ["geometry", "extra"] [[()]] ⟨"W"⟩ (by norm_num)
      (fun _ _ _ => []) [[[Except.ok emptyBlockCOO]]] rfl

/-- Counterexample to claim C8 as stated: on the chunked path a geometry
table with two columns does not raise the multiple-geometry-columns usage
error — the pipeline invokes `dask_coverage` first and then fails with the
axis-squeeze error instead. -/
theorem coverage_column_check_counterexample :
    coverage (G := Unit)
        ⟨some "S", ArrOrDask.dask [[0, 1]], ArrOrDask.arr [0, 1], Option.none, Option.none⟩
        (GeoInput.mem ⟨["geometry", "extra"], [()], ⟨"W"⟩⟩)
        DEFAULT_STRATEGY CoverageWeightsKind.fraction (fun _ _ _ => [])
      ≠ Except.error "Require a single geometries column or a GeoSeries." := by
  have hc : coverage (G := Unit)
      ⟨some "S", ArrOrDask.dask [[0, 1]], ArrOrDask.arr [0, 1], Option.none, Option.none⟩
      (GeoInput.mem ⟨["geometry", "extra"], [()], ⟨"W"⟩⟩)
      DEFAULT_STRATEGY CoverageWeightsKind.fraction (fun _ _ _ => [])
      = Except.error
          "cannot select an axis to squeeze out which has size not equal to one" := rfl
  rw [hc]
  simp

/-- Claim C9 (amended): whenever the Mode Selector routes to the chunked
path, `coverage` computes exactly the chunked pipeline on the normalized
inputs: each coordinate array that is already chunked is passed through;
an in-memory coordinate array is chunked per the object's chunk-size
metadata for that dimension when present, and as one single chunk only when
no such metadata exists; the geometry collection is normalized through its
chunked representation. -/
theorem coverage_chunked_normalization_spec {G : Type} (obj : XrObj)
    (geoms : GeoInput G) (st : Strategy) (cw : CoverageWeightsKind)
    (engine : Engine G) (s : String)
    (hs : obj.spatial_ref = some s)
    (hmem : is_in_memory obj geoms = false) :
    coverage obj geoms st cw engine = coverage_chunked obj geoms st cw engine s ∧
    (∀ (grid : List (List (List (Except String COO)))) (gcoord : GeomCoord G),
      dask_coverage (normalizeCoord obj.xdata obj.xchunksizes)
          (normalizeCoord obj.ydata obj.ychunksizes)
          (geometries_as_dask_array geoms) cw st (GeoInput.crs geoms) engine
        = Except.ok grid →
      (match geoms with
       | .mem gdf => (gdf_squeeze gdf).map GeomCoord.mem
       | .daskgdf _ _ _ => Except.ok (GeomCoord.dask (geometries_as_dask_array geoms)))
        = Except.ok gcoord →
      coverage obj geoms st cw engine
        = Except.ok (assemble cw s (CoverageData.dask grid) gcoord)) ∧
    (∀ d : List ℚ, normalizeCoord (ArrOrDask.arr d) Option.none = [d]) ∧
    (∀ (d : List ℚ) (cs : List ℕ),
      normalizeCoord (ArrOrDask.arr d) (some cs) = partitionChunks d cs) ∧
    (∀ (cs : List (List ℚ)) (m : Option (List ℕ)),
      normalizeCoord (ArrOrDask.dask cs) m = cs) := by
  refine ⟨coverage_dispatch_chunked obj geoms st cw engine s hs hmem,
    ?_, fun d => rfl, fun d cs => rfl, fun cs m => rfl⟩
  intro grid gcoord hdask hgc
  rw [coverage_dispatch_chunked obj geoms st cw engine s hs hmem]
  simp only [coverage_chunked]
  rw [hdask, hgc]

/-- Witness for C9: a dask-chunked x-axis passes its chunking through; a
plain y-axis with no metadata becomes a single chunk. -/
theorem coverage_chunked_normalization_spec_witness :
    coverage (G := Unit)
        ⟨some "S", ArrOrDask.dask [[0, 1], [2, 3]], ArrOrDask.arr [0, 1],
          Option.none, Option.none⟩
        (GeoInput.daskgdf ["geometry"] [[()]] ⟨"W"⟩)
        DEFAULT_STRATEGY CoverageWeightsKind.fraction (fun _ _ _ => [])
      = Except.ok (assemble CoverageWeightsKind.fraction "S"
          (CoverageData.dask [[[Except.ok emptyBlockCOO, Except.ok emptyBlockCOO]]])
          (GeomCoord.dask [[()]])) ∧
    normalizeCoord (ArrOrDask.arr [0, 1]) Option.none = [[0, 1]] := by
  have h := coverage_chunked_normalization_spec (G := Unit)
    ⟨some "S", ArrOrDask.dask [[0, 1], [2, 3]], ArrOrDask.arr [0, 1],
      Option.none, Option.none⟩
    (GeoInput.daskgdf ["geometry"] [[()]] ⟨"W"⟩)
    DEFAULT_STRATEGY CoverageWeightsKind.fraction (fun _ _ _ => []) "S" rfl rfl
  exact ⟨h.2.1 [[[Except.ok emptyBlockCOO, Except.ok emptyBlockCOO]]]
    (GeomCoord.dask [[()]]) rfl rfl, h.2.2.1 [0, 1]⟩

/-- Counterexample to claim C9 as stated: an in-memory x-coordinate array on
an object carrying chunk-size metadata `[2, 2]` for the x dimension is *not*
normalized to a single-chunk array — the chunked result has two x blocks. -/
theorem coverage_single_chunk_counterexample :
    coverage (G := Unit)
        ⟨some "S", ArrOrDask.arr [0, 1, 2, 3], ArrOrDask.arr [0, 1],
          some [2, 2], Option.none⟩
        (GeoInput.mem ⟨["geometry"], [()], ⟨"W"⟩⟩)
        DEFAULT_STRATEGY CoverageWeightsKind.fraction (fun _ _ _ => [])
      = Except.ok (assemble CoverageWeightsKind.fraction "S"
          (CoverageData.dask [[[Except.ok emptyBlockCOO, Except.ok emptyBlockCOO]]])
          (GeomCoord.mem [()])) ∧
    ¬ ((([[[Except.ok emptyBlockCOO, Except.ok emptyBlockCOO]]]
        : List (List (List (Except String COO)))).getD 0 []).getD 0 []).length = 1 := by
  exact ⟨rfl, by norm_num⟩

/-- Erase the attached spatial-reference payload of a labeled output, to
compare outputs up to that coordinate. -/
def stripSpatialRef {G : Type} (out : DataArrayOut G) : DataArrayOut G :=
  { out with spatial_ref := "" }

theorem coverage_mem_strip {G : Type} (xd yd : List ℚ) (gdf : GeoDataFrame G)
    (st : Strategy) (cw : CoverageWeightsKind) (engine : Engine G)
    (s1 s2 : String) :
    (coverage_mem xd yd gdf st cw engine s1).map stripSpatialRef
      = (coverage_mem xd yd gdf st cw engine s2).map stripSpatialRef := by
  unfold coverage_mem
  cases np_coverage xd yd gdf st cw engine with
  | error e => rfl
  | ok out =>
    cases gdf_squeeze gdf with
    | error e => rfl
    | ok ga => simp [assemble, stripSpatialRef, Except.map]

theorem coverage_mem_sr {G : Type} (xd yd : List ℚ) (gdf : GeoDataFrame G)
    (st : Strategy) (cw : CoverageWeightsKind) (engine : Engine G) (s : String)
    (out : DataArrayOut G)
    (hok : coverage_mem xd yd gdf st cw engine s = Except.ok out) :
    out.spatial_ref = s := by
  unfold coverage_mem at hok
  cases hnp : np_coverage xd yd gdf st cw engine with
  | error e => rw [hnp] at hok; simp at hok
  | ok o =>
    rw [hnp] at hok
    cases hsq : gdf_squeeze gdf with
    | error e => rw [hsq] at hok; simp at hok
    | ok ga =>
      rw [hsq] at hok
      simp only [Except.ok.injEq] at hok
      rw [← hok]
      simp [assemble]

theorem coverage_chunked_strip {G : Type} (obj : XrObj) (geoms : GeoInput G)
    (st : Strategy) (cw : CoverageWeightsKind) (engine : Engine G)
    (s1 s2 : String) :
    (coverage_chunked obj geoms st cw engine s1).map stripSpatialRef
      = (coverage_chunked obj geoms st cw engine s2).map stripSpatialRef := by
  simp only [coverage_chunked]
  cases dask_coverage (normalizeCoord obj.xdata obj.xchunksizes)
      (normalizeCoord obj.ydata obj.ychunksizes) (geometries_as_dask_array geoms)
      cw st (GeoInput.crs geoms) engine with
  | error e => rfl
  | ok grid =>
    cases geoms with
    | mem gdf =>
      cases hsq : gdf_squeeze gdf with
      | error e => simp [hsq, Except.map]
      | ok ga => simp [hsq, Except.map, assemble, stripSpatialRef]
    | daskgdf cols parts crs0 => simp [assemble, stripSpatialRef, Except.map]

theorem coverage_chunked_sr {G : Type} (obj : XrObj) (geoms : GeoInput G)
    (st : Strategy) (cw : CoverageWeightsKind) (engine : Engine G) (s : String)
    (out : DataArrayOut G)
    (hok : coverage_chunked obj geoms st cw engine s = Except.ok out) :
    out.spatial_ref = s := by
  simp only [coverage_chunked] at hok
  cases hdc : dask_coverage (normalizeCoord obj.xdata obj.xchunksizes)
      (normalizeCoord obj.ydata obj.ychunksizes) (geometries_as_dask_array geoms)
      cw st (GeoInput.crs geoms) engine with
  | error e => rw [hdc] at hok; simp at hok
  | ok grid =>
    rw [hdc] at hok
    cases geoms with
    | mem gdf =>
      cases hsq : gdf_squeeze gdf with
      | error e => simp [hsq, Except.map] at hok
      | ok ga =>
        simp only [hsq, Except.map, Except.ok.injEq] at hok
        rw [← hok]
        simp [assemble]
    | daskgdf cols parts crs0 =>
      simp only [Except.ok.injEq] at hok
      rw [← hok]
      simp [assemble]

/-- Claim C10: coverage values never depend on the object's spatial_ref
payload: two runs on objects identical up to that payload produce results
identical up to the attached spatial-reference coordinate; the payload is only
re-attached as the output's spatial_ref coordinate; and the single-block
computer consults the engine only at the raster descriptor carrying the
geometries' CRS WKT, so engines agreeing there produce identical results — a
CRS mismatch between object and geometries is never detected. -/
theorem coverage_crs_insensitivity_spec {G : Type} (obj : XrObj)
    (geoms : GeoInput G) (st : Strategy) (cw : CoverageWeightsKind)
    (engine : Engine G) (s1 s2 : String) :
    (coverage { obj with spatial_ref := some s1 } geoms st cw engine).map
        stripSpatialRef
      = (coverage { obj with spatial_ref := some s2 } geoms st cw engine).map
          stripSpatialRef ∧
    (∀ out : DataArrayOut G,
      coverage { obj with spatial_ref := some s1 } geoms st cw engine
        = Except.ok out →
      out.spatial_ref = s1) ∧
    (∀ (x y : List ℚ) (gdf : GeoDataFrame G) (e1 e2 : Engine G),
      (∀ (gl : List G) (cwx : CoverageWeightsKind),
        e1 (xy_to_raster_source x y (some gdf.crs.wkt)) gl cwx
          = e2 (xy_to_raster_source x y (some gdf.crs.wkt)) gl cwx) →
      np_coverage_core x y gdf cw e1 = np_coverage_core x y gdf cw e2) := by
  refine ⟨?_, ?_, ?_⟩
  · cases him : is_in_memory obj geoms with
    | false =>
      have e1 : coverage { obj with spatial_ref := some s1 } geoms st cw engine
          = coverage_chunked obj geoms st cw engine s1 :=
        coverage_dispatch_chunked { obj with spatial_ref := some s1 } geoms
          st cw engine s1 rfl him
      have e2 : coverage { obj with spatial_ref := some s2 } geoms st cw engine
          = coverage_chunked obj geoms st cw engine s2 :=
        coverage_dispatch_chunked { obj with spatial_ref := some s2 } geoms
          st cw engine s2 rfl him
      rw [e1, e2]
      exact coverage_chunked_strip obj geoms st cw engine s1 s2
    | true =>
      rcases obj with ⟨sr, xd, yd, xcs, ycs⟩
      cases xd with
      | dask xc => simp [is_in_memory] at him
      | arr xdd =>
        cases yd with
        | dask yc => simp [is_in_memory] at him
        | arr ydd =>
          cases geoms with
          | daskgdf cols parts crs0 => simp [is_in_memory] at him
          | mem gdf =>
            simp only [is_in_memory, Bool.and_eq_true,
              Option.isNone_iff_eq_none] at him
            obtain ⟨⟨⟨⟨-, -⟩, hxcs⟩, hycs⟩, -⟩ := him
            subst hxcs
            subst hycs
            exact coverage_mem_strip xdd ydd gdf st cw engine s1 s2
  · intro out hok
    cases him : is_in_memory obj geoms with
    | false =>
      have e1 : coverage { obj with spatial_ref := some s1 } geoms st cw engine
          = coverage_chunked obj geoms st cw engine s1 :=
        coverage_dispatch_chunked { obj with spatial_ref := some s1 } geoms
          st cw engine s1 rfl him
      rw [e1] at hok
      exact coverage_chunked_sr obj geoms st cw engine s1 out hok
    | true =>
      rcases obj with ⟨sr, xd, yd, xcs, ycs⟩
      cases xd with
      | dask xc => simp [is_in_memory] at him
      | arr xdd =>
        cases yd with
        | dask yc => simp [is_in_memory] at him
        | arr ydd =>
          cases geoms with
          | daskgdf cols parts crs0 => simp [is_in_memory] at him
          | mem gdf =>
            simp only [is_in_memory, Bool.and_eq_true,
              Option.isNone_iff_eq_none] at him
            obtain ⟨⟨⟨⟨-, -⟩, hxcs⟩, hycs⟩, -⟩ := him
            subst hxcs
            subst hycs
            exact coverage_mem_sr xdd ydd gdf st cw engine s1 out hok
  · intro x y gdf e1 e2 h
    simp only [np_coverage_core]
    rw [h]

/-- A chunk-backed gridded object used to witness the CRS-insensitivity
theorem at concrete inputs. -/
def crsWitnessObj : XrObj :=
  ⟨some "Z", ArrOrDask.dask [[0, 1]], ArrOrDask.arr [0, 1], Option.none, Option.none⟩

/-- Witness for C10: swapping the spatial_ref payload between "A" and "B"
leaves the stripped output unchanged, and the output's spatial_ref coordinate
is exactly the object's payload. -/
theorem coverage_crs_insensitivity_spec_witness :
    (coverage (G := Unit) { crsWitnessObj with spatial_ref := some "A" }
        (GeoInput.daskgdf ["geometry"] [[()]] ⟨"W"⟩) DEFAULT_STRATEGY
        CoverageWeightsKind.fraction (fun _ _ _ => [])).map stripSpatialRef
      = (coverage (G := Unit) { crsWitnessObj with spatial_ref := some "B" }
          (GeoInput.daskgdf ["geometry"] [[()]] ⟨"W"⟩) DEFAULT_STRATEGY
          CoverageWeightsKind.fraction (fun _ _ _ => [])).map stripSpatialRef ∧
    (assemble CoverageWeightsKind.fraction "A"
        (CoverageData.dask [[[Except.ok emptyBlockCOO]]])
        (GeomCoord.dask [[()]])).spatial_ref = "A" := by
  have h := coverage_crs_insensitivity_spec (G := Unit) crsWitnessObj
    (GeoInput.daskgdf ["geometry"] [[()]] ⟨"W"⟩) DEFAULT_STRATEGY
    CoverageWeightsKind.fraction (fun _ _ _ => []) "A" "B"
  exact ⟨h.1, h.2.1 _ rfl⟩
